import Mathlib

/-!
Verification of `transcode_recordings.py` (tvheadend_tools).

Shallow embedding of the pure logic of the script:

* `CommercialDetector.generate_metadata` — parsing of the comskip frame
  report into commercial/content interval lists and the appended chapter
  text.  Python strings are modelled as `String`/`List Char`; the two
  regular expressions used by the code (`re.match`, i.e. anchored prefix
  match) are modelled by explicit maximal-munch scanners, which is exact
  here because the character classes involved (`\d`, `\s`, literals) are
  pairwise disjoint, so the regex engine never backtracks.
* `TVHDVRRecord._calculate_target_video_bitrate` — Python float arithmetic
  is modelled by exact rational arithmetic; for the concrete inputs used
  in the claims the double-precision evaluation agrees (5000000 * 0.6
  rounds to exactly 3000000.0).
* The orchestration of `main` / `TVHDVRRecord.start_transcoding` /
  `update_file_location` — modelled as a trace of externally visible
  effects over an environment recording the success of each external
  collaborator (registry, comskip, ffprobe, ffmpeg, filesystem).

The interval values are modelled as `Nat`; the Python code stores the
matched digit substrings and re-converts with `int(...)`, which coincides
with the numeric model (decimal digit strings without a sign).
-/

/-- Python's `\d` on latin-1 decoded text: the ASCII decimal digits
(latin-1 has no other Unicode `Nd` character). -/
def pyIsDigit (c : Char) : Bool :=
  48 ≤ c.toNat && c.toNat ≤ 57

/-- Python's `\s` on latin-1 decoded text: ASCII whitespace plus the two
latin-1 Unicode whitespace characters NEL (U+0085) and NBSP (U+00A0). -/
def pyIsSpace (c : Char) : Bool :=
  c = ' ' || c = '\t' || c = '\n' || c = '\x0b' || c = '\x0c' || c = '\r' ||
  c = '\x85' || c = '\xa0'

/-- `int(...)` on a decimal-digit string. -/
def natOfDigits (ds : List Char) : Nat :=
  ds.foldl (fun n c => 10 * n + (c.toNat - 48)) 0

/-- Consume an exact literal from the front of the input (regex literal
characters), returning the rest. -/
def dropLit : List Char → List Char → Option (List Char)
  | [], cs => some cs
  | _ :: _, [] => none
  | l :: ls, c :: cs => if c = l then dropLit ls cs else none

/-- Consume a maximal nonempty run of characters satisfying `p`
(regex `p+` for a character class `p`), returning the run and the rest. -/
def takeRun (p : Char → Bool) (cs : List Char) : Option (List Char × List Char) :=
  let t := cs.takeWhile p
  if t.isEmpty then none else some (t, cs.dropWhile p)

/-- `re.match(r"FILE PROCESSING COMPLETE\s+(\d+) FRAMES AT\s+(\d+)", line)`
from `CommercialDetector.generate_metadata`, returning
`(int(group(1)), int(group(2)))`.  `re.match` anchors at the start and
accepts any trailing text (prefix match). -/
def matchHeaderChars (cs : List Char) : Option (Nat × Nat) :=
  match dropLit "FILE PROCESSING COMPLETE".data cs with
  | none => none
  | some cs1 =>
  match takeRun pyIsSpace cs1 with
  | none => none
  | some (_, cs2) =>
  match takeRun pyIsDigit cs2 with
  | none => none
  | some (d1, cs3) =>
  match dropLit " FRAMES AT".data cs3 with
  | none => none
  | some cs4 =>
  match takeRun pyIsSpace cs4 with
  | none => none
  | some (_, cs5) =>
  match takeRun pyIsDigit cs5 with
  | none => none
  | some (d2, _) => some (natOfDigits d1, natOfDigits d2)

/-- `re.match(r"(\d+)\s+(\d+)", line)` from
`CommercialDetector.generate_metadata`, returning the two groups as
numbers. -/
def matchChapterChars (cs : List Char) : Option (Nat × Nat) :=
  match takeRun pyIsDigit cs with
  | none => none
  | some (d1, cs1) =>
  match takeRun pyIsSpace cs1 with
  | none => none
  | some (_, cs2) =>
  match takeRun pyIsDigit cs2 with
  | none => none
  | some (d2, _) => some (natOfDigits d1, natOfDigits d2)

/-- Header regex applied to a line. -/
def matchHeader (s : String) : Option (Nat × Nat) :=
  matchHeaderChars s.data

/-- Chapter-line regex applied to a line. -/
def matchChapter (s : String) : Option (Nat × Nat) :=
  matchChapterChars s.data

/-- The candidate-keeping loop of `generate_metadata`
(`for i in range(2, len(...))`): lines that match the chapter regex are
kept as commercials exactly when `int(end) - int(start) > 10`.  This is
applied to `lines.drop 2`: the loop starts at index 2, so the second
line of the report (index 1) is never examined. -/
def collectCommercials : List String → List (Nat × Nat)
  | [] => []
  | line :: rest =>
    match matchChapter line with
    | none => collectCommercials rest
    | some (s, e) =>
      if (10 : Int) < (e : Int) - (s : Int) then (s, e) :: collectCommercials rest
      else collectCommercials rest

/-- The content-derivation loop of `generate_metadata`: scan the kept
commercials with a cursor `last_pos` starting at 1; before a commercial
starting past the cursor emit a content interval, and after the last
commercial emit a trailing interval up to `last_frame` when the cursor
has not reached it.  An empty commercials list yields no content at all
(the loop body never runs). -/
def contentIntervals (last_frame : Nat) : Nat → List (Nat × Nat) → List (Nat × Nat)
  | _, [] => []
  | last_pos, [(s, e)] =>
    (if last_pos < s then [(last_pos, s)] else []) ++
      (if e < last_frame then [(e, last_frame)] else [])
  | last_pos, (s, e) :: r :: rest =>
    (if last_pos < s then [(last_pos, s)] else []) ++
      contentIntervals last_frame e (r :: rest)

/-- The parsing part of `CommercialDetector.generate_metadata` applied to
`self.raw_detection_result`: `none` models the two early `return`
statements (report shorter than 3 lines, or a first line the header
regex does not match — both silent, no exception) and `some
(last_frame, frame_rate, commercials, content)` models a completed run
of the method body. -/
def generate_metadata (lines : List String) :
    Option (Nat × Nat × List (Nat × Nat) × List (Nat × Nat)) :=
  if lines.length < 3 then none
  else
    match matchHeader (lines.headD "") with
    | none => none
    | some (last_frame, frame_rate) =>
      let commercials := collectCommercials (lines.drop 2)
      some (last_frame, frame_rate, commercials, contentIntervals last_frame 1 commercials)

/-- One `[CHAPTER]` block emitted by `CommercialDetector._chapter_as_string`. -/
def chapterEntry (frame_rate : Nat) (label : String) (idx : Nat) (seg : Nat × Nat) : String :=
  "[CHAPTER]\nTIMEBASE=100/" ++ toString frame_rate ++ "\nSTART=" ++ toString seg.1 ++
    "\nEND=" ++ toString seg.2 ++ "\ntitle=" ++ label ++ " " ++ toString idx ++ "\n"

/-- The loop of `CommercialDetector._chapter_as_string`, with the running
1-based index. -/
def chapterBlocks (frame_rate : Nat) (label : String) : Nat → List (Nat × Nat) → String
  | _, [] => ""
  | idx, seg :: rest =>
    chapterEntry frame_rate label (idx + 1) seg ++ chapterBlocks frame_rate label (idx + 1) rest

/-- `CommercialDetector._chapter_as_string(frame_rate, label, segments)`. -/
def chapter_as_string (frame_rate : Nat) (label : String) (segments : List (Nat × Nat)) : String :=
  chapterBlocks frame_rate label 0 segments

/-- The total text `generate_metadata` appends to `self.ffmetadata`:
nothing on either early return, otherwise the content chapters followed
by the commercial chapters. -/
def generate_metadata_append (lines : List String) : String :=
  match generate_metadata lines with
  | none => ""
  | some (_, frame_rate, commercials, content) =>
    chapter_as_string frame_rate "content" content ++
      chapter_as_string frame_rate "commercial" commercials

/-- The first character of the list (if any) does not satisfy `p`; used to
state where a maximal `p`-run must stop. -/
def headNot (p : Char → Bool) : List Char → Prop
  | [] => True
  | c :: _ => p c = false

instance headNotDecidable (p : Char → Bool) (l : List Char) : Decidable (headNot p l) :=
  match l with
  | [] => isTrue trivial
  | c :: _ => inferInstanceAs (Decidable (p c = false))

/-- `TVHDVRRecord._calculate_target_video_bitrate`:
`int((src_video_bitrate * factor) // 1024 * 1024)`.  Python float
arithmetic is modelled exactly over `ℚ`; `//` on floats is floored
division and `int(...)` of the already integral result is the identity. -/
def calculate_target_video_bitrate (src_video_bitrate : Nat) (factor : ℚ) : Int :=
  ⌊(src_video_bitrate : ℚ) * factor / 1024⌋ * 1024

/-- Externally visible effects of one pipeline run, in program order. -/
inductive Effect where
  | registryLookup
  | detectorRun
  | probeRun
  | encoderRun
  | fileCreate
  | fileMove
  | fileRemove
  | consolePrint
  deriving DecidableEq

/-- Outcome of every external collaborator touched by one run: whether the
registry lookups return HTTP 200, whether comskip / ffprobe / ffmpeg exit
zero, whether `shutil.move` succeeds, whether the destination directory
of the transcoded file exists, and the HTTP status of the
`dvr/entry/filemoved` notification. -/
structure Env where
  lookupOk : Bool
  channelLookupOk : Bool
  detectorOk : Bool
  probeOk : Bool
  encoderOk : Bool
  moveOk : Bool
  destDirExists : Bool
  notifyStatus : Nat

/-- `TVHDVRRecord.update_file_location`: `False` when the destination
directory is missing (no request is made) or when the POST answers with a
status other than 200, `True` otherwise. -/
def update_file_location (destDirExists : Bool) (status : Nat) : Bool :=
  if destDirExists = false then false
  else if status ≠ 200 then false
  else true

/-- Effect trace of one pipeline run (`TVHDVRRecord.__init__` +
`detect_commercials` + `start_transcoding` as sequenced by `main`), cut
short at the first failing collaborator:

* failed record lookup leaves the record attributes unset and the
  subsequent attribute access raises outside any handler — no further
  effect; likewise for the channel lookup;
* comskip / ffprobe / ffmpeg failures raise `TranscodeError`, caught by
  `main`'s bare handler which only prints;
* a failed `shutil.move` raises, likewise only printed;
* after a successful move, `os.remove` on the source runs exactly when
  `update_file_location` returns `True`; a non-200 notification status is
  printed.

`fileCreate` stands for the temporary files/directories (comskip scratch
directory, transcode scratch directory with `metadata.txt`). -/
def pipelineTrace (env : Env) : List Effect :=
  Effect.registryLookup ::
    if env.lookupOk = false then []
    else Effect.registryLookup ::
      if env.channelLookupOk = false then []
      else Effect.fileCreate :: Effect.detectorRun ::
        if env.detectorOk = false then [Effect.consolePrint]
        else Effect.fileCreate :: Effect.fileCreate :: Effect.probeRun ::
          if env.probeOk = false then [Effect.consolePrint]
          else Effect.encoderRun ::
            if env.encoderOk = false then [Effect.consolePrint]
            else if env.moveOk = false then [Effect.consolePrint]
            else Effect.fileMove ::
              if env.destDirExists = false then []
              else if env.notifyStatus ≠ 200 then [Effect.consolePrint]
              else [Effect.fileRemove]

/-- `main()` as an effect trace: `sys.argv` (script name included) must
have exactly 4 entries, otherwise the usage text is printed; then the
status argument (`sys.argv[2]`) must be the literal `"OK"`, otherwise
`main` returns with no effect at all; only then does the pipeline run. -/
def mainRun (env : Env) (argv : List String) : List Effect :=
  if argv.length ≠ 4 then [Effect.consolePrint]
  else if argv.getD 2 "" ≠ "OK" then []
  else pipelineTrace env

/-- A trace with no effect other than console output. -/
def noExternalEffects (tr : List Effect) : Bool :=
  tr.all fun e => decide (e = Effect.consolePrint)

/-- The run reaches the registry notification exactly when every earlier
stage succeeded. -/
def reachesNotify (env : Env) : Bool :=
  env.lookupOk && env.channelLookupOk && env.detectorOk && env.probeOk &&
    env.encoderOk && env.moveOk

/-- Orderedness hypothesis on a commercials list relative to a cursor:
each interval starts at or after the cursor (initially 1), is nonempty,
ends within `[1, N]`, and the next interval starts at or after its end. -/
def comsOrdered (N : Nat) : Nat → List (Nat × Nat) → Bool
  | _, [] => true
  | lp, (s, e) :: rest =>
    decide (lp ≤ s) && decide (s < e) && decide (e ≤ N) && comsOrdered N e rest

/-- A list of intervals forms a gapless chain from `lp` to `N`: each
interval starts exactly where the previous one ended and the last one
ends at `N`. -/
def isChain (N : Nat) : Nat → List (Nat × Nat) → Bool
  | lp, [] => decide (lp = N)
  | lp, (a, b) :: rest => decide (a = lp) && decide (lp ≤ b) && isChain N b rest

/-! ## Helper lemmas -/

/-- Inversion for a completed run of `generate_metadata`: the commercials
are the kept candidates from the third line on, and the content intervals
are derived from them by the cursor loop. -/
theorem generate_metadata_inv {lines : List String} {N rate : Nat}
    {coms conts : List (Nat × Nat)}
    (hp : generate_metadata lines = some (N, rate, coms, conts)) :
    coms = collectCommercials (lines.drop 2) ∧ conts = contentIntervals N 1 coms := by
  unfold generate_metadata at hp
  split at hp
  · exact Option.noConfusion hp
  · split at hp
    · exact Option.noConfusion hp
    · simp only [Option.some.injEq, Prod.mk.injEq] at hp
      obtain ⟨h1, h2, h3, h4⟩ := hp
      subst h1
      subst h2
      subst h3
      subst h4
      exact ⟨rfl, rfl⟩

/-- A three-line (or longer) report whose first line fails the header
regex makes `generate_metadata` return through the `"invalid commercials
file"` branch. -/
theorem generate_metadata_bad_header (l0 : String) (ls : List String)
    (h : matchHeader l0 = none) (hlen : ¬ (l0 :: ls).length < 3) :
    generate_metadata (l0 :: ls) = none := by
  unfold generate_metadata
  rw [if_neg hlen]
  simp only [List.headD_cons]
  rw [h]

/-- Evaluation of `generate_metadata` on a three-line report with a
matching header. -/
theorem generate_metadata_three (l0 l1 l2 : String) (N R : Nat)
    (h : matchHeader l0 = some (N, R)) :
    generate_metadata [l0, l1, l2] =
      some (N, R, collectCommercials [l2],
        contentIntervals N 1 (collectCommercials [l2])) := by
  unfold generate_metadata
  rw [if_neg (by simp)]
  simp only [List.headD_cons]
  rw [h]
  rfl

/-- Shared evaluation fact for the bitrate claims:
`floor(5000000 * (3/5) / 1024) * 1024 = 2929 * 1024 = 2999296`. -/
theorem calc_bitrate_value : calculate_target_video_bitrate 5000000 (3 / 5) = 2999296 := by
  unfold calculate_target_video_bitrate
  have h : (((5000000 : Nat) : ℚ) * (3 / 5) / 1024) = 46875 / 16 := by norm_num
  rw [h]
  have hf : ⌊(46875 / 16 : ℚ)⌋ = 2929 := Int.floor_eq_iff.mpr (by norm_num)
  rw [hf]
  norm_num

/-! ## Claim theorems -/

/-- C1: the source transport-stream file is deleted (`os.remove`) if and
only if the run reached the registry file-moved notification and
`update_file_location` returned `True`, which in turn happens exactly
when the destination directory exists and the HTTP response status is
200; any failure before or at notification leaves the source file in
place. -/
theorem source_file_removed_iff_notify_succeeded (env : Env) :
    (Effect.fileRemove ∈ pipelineTrace env ↔
      (reachesNotify env = true ∧
        update_file_location env.destDirExists env.notifyStatus = true)) ∧
    (update_file_location env.destDirExists env.notifyStatus = true ↔
      (env.destDirExists = true ∧ env.notifyStatus = 200)) := by
  obtain ⟨l, c, d, p, e, m, dd, s⟩ := env
  constructor
  · cases l <;> cases c <;> cases d <;> cases p <;> cases e <;> cases m <;> cases dd <;>
      by_cases hs : s = 200 <;>
      simp [pipelineTrace, reachesNotify, update_file_location, hs]
  · cases dd <;> by_cases hs : s = 200 <;> simp [update_file_location, hs]

/-- C2 counterexample: on the three-line report whose lines after the
header are `"100 130"` and `"500 550"`, the loop `for i in range(2, ...)`
never examines line index 1, so `"100 130"` is dropped: the result is
`commercials = [(500, 550)]`, `content = [(1, 500), (550, 1000)]`, not
the claimed value. -/
theorem generate_metadata_skips_second_line :
    generate_metadata
      ["FILE PROCESSING COMPLETE 1000 FRAMES AT 25", "100 130", "500 550"] =
      some (1000, 25, [(500, 550)], [(1, 500), (550, 1000)]) ∧
    generate_metadata
      ["FILE PROCESSING COMPLETE 1000 FRAMES AT 25", "100 130", "500 550"] ≠
      some (1000, 25, [(100, 130), (500, 550)], [(1, 100), (130, 500), (550, 1000)]) :=
  ⟨by decide, by decide⟩

/-- C2 amended: interval lines are scanned only from the third line
(index 2) onward; with a separator line between the header and the
interval pairs `"100 130"`, `"500 550"` the run produces
`commercials = [(100, 130), (500, 550)]` and
`content = [(1, 100), (130, 500), (550, 1000)]`, while the three-line
report of the original claim drops its first interval line. -/
theorem generate_metadata_intervals_from_third_line :
    generate_metadata
      ["FILE PROCESSING COMPLETE 1000 FRAMES AT 25", "-----------",
        "100 130", "500 550"] =
      some (1000, 25, [(100, 130), (500, 550)],
        [(1, 100), (130, 500), (550, 1000)]) ∧
    generate_metadata
      ["FILE PROCESSING COMPLETE 1000 FRAMES AT 25", "100 130", "500 550"] =
      some (1000, 25, [(500, 550)], [(1, 500), (550, 1000)]) :=
  ⟨by decide, by decide⟩

/-- C3 counterexample: for source bitrate 5000000 and factor 0.6 the
computed target is `floor(3000000 / 1024) * 1024 = 2929 * 1024 =
2999296`, not the claimed 2928640. -/
theorem target_bitrate_example_value :
    calculate_target_video_bitrate 5000000 (3 / 5) = 2999296 ∧
    calculate_target_video_bitrate 5000000 (3 / 5) ≠ 2928640 := by
  refine ⟨calc_bitrate_value, ?_⟩
  rw [calc_bitrate_value]
  decide

/-- C3 amended: the target bitrate is `floor(source_bitrate * factor /
1024) * 1024`, i.e. the largest multiple of 1024 not exceeding
`source_bitrate * factor`; in particular for source bitrate 5000000 and
factor 0.6 the result is 2999296. -/
theorem target_bitrate_floor_multiple :
    (∀ (src : Nat) (factor : ℚ),
      (1024 : Int) ∣ calculate_target_video_bitrate src factor ∧
      ((calculate_target_video_bitrate src factor : ℚ)) ≤ (src : ℚ) * factor ∧
      (src : ℚ) * factor - ((calculate_target_video_bitrate src factor : ℚ)) < 1024) ∧
    calculate_target_video_bitrate 5000000 (3 / 5) = 2999296 := by
  refine ⟨?_, calc_bitrate_value⟩
  intro src factor
  simp only [calculate_target_video_bitrate]
  set q : ℚ := (src : ℚ) * factor / 1024 with hq
  have hmul : (src : ℚ) * factor = q * 1024 := by
    rw [hq]
    field_simp
  have h1 : (⌊q⌋ : ℚ) ≤ q := Int.floor_le q
  have h2 : q < ⌊q⌋ + 1 := Int.lt_floor_add_one q
  refine ⟨dvd_mul_left _ _, ?_, ?_⟩
  · rw [hmul]
    push_cast
    nlinarith
  · rw [hmul]
    push_cast
    nlinarith

/-- C8: whenever the completion-status argument (`sys.argv[2]`) is not
the literal `"OK"`, `main` performs no external effect at all — no
registry lookup, no detector, probe or encoder invocation, no file
created, moved or deleted (at most the usage text is printed when the
argument count is also wrong). -/
theorem bad_status_no_side_effects (env : Env) (argv : List String)
    (h : argv.getD 2 "" ≠ "OK") :
    noExternalEffects (mainRun env argv) = true := by
  unfold mainRun
  rw [if_pos h]
  split
  · rfl
  · rfl

theorem bad_status_no_side_effects_witness :
    noExternalEffects (mainRun ⟨true, true, true, true, true, true, true, 200⟩
      ["transcode_recordings.py", "b63cd56e", "FAILED", "comskip.ini"]) = true :=
  bad_status_no_side_effects _ _ (by decide)

/-- C9 (code bug): an invocation that supplies only the recording
identifier and the completion status (`sys.argv` of length 3) hits the
`len(sys.argv) != 4` guard, prints the usage text and returns without
running the pipeline — even though the usage text and the docstring call
the comskip config argument optional and a dead `if len(sys.argv) == 4`
branch defaults it to the empty string. -/
theorem missing_config_prints_usage (env : Env) :
    mainRun env ["transcode_recordings.py", "b63cd56e", "OK"] =
      [Effect.consolePrint] := by
  rfl

/-- C6: a report with fewer than 3 lines, or whose first line does not
match the header regex, makes `generate_metadata` return early — no
commercial or content intervals are produced, nothing is appended to
`ffmetadata`, and (the embedding being total) no exception is raised. -/
theorem short_or_bad_header_yields_empty (lines : List String)
    (h : lines.length < 3 ∨ matchHeader (lines.headD "") = none) :
    generate_metadata lines = none ∧ generate_metadata_append lines = "" := by
  have hnone : generate_metadata lines = none := by
    unfold generate_metadata
    rcases h with h | h
    · rw [if_pos h]
    · by_cases hl : lines.length < 3
      · rw [if_pos hl]
      · rw [if_neg hl]
        cases lines with
        | nil => simp at hl
        | cons l0 ls =>
          simp only [List.headD_cons] at h ⊢
          rw [h]
  refine ⟨hnone, ?_⟩
  unfold generate_metadata_append
  rw [hnone]

theorem short_or_bad_header_yields_empty_witness :
    generate_metadata ["no header"] = none ∧
      generate_metadata_append ["no header"] = "" :=
  short_or_bad_header_yields_empty ["no header"] (Or.inl (by decide))

/-- C7: when the kept commercials list is empty the content loop never
runs, so the content list is empty as well — even for a valid header
with a large `total_frame_count`. -/
theorem no_commercials_no_content (lines : List String) (N rate : Nat)
    (conts : List (Nat × Nat))
    (hp : generate_metadata lines = some (N, rate, [], conts)) :
    conts = [] ∧ generate_metadata lines = some (N, rate, [], []) := by
  obtain ⟨-, hconts⟩ := generate_metadata_inv hp
  have hnil : conts = [] := by rw [hconts]; rfl
  rw [hnil] at hp
  exact ⟨hnil, hp⟩

theorem no_commercials_no_content_witness :
    1 < 1000 ∧
      (([] : List (Nat × Nat)) = [] ∧
        generate_metadata ["FILE PROCESSING COMPLETE 1000 FRAMES AT 25", "--", "--"] =
          some (1000, 25, [], [])) :=
  ⟨by decide,
    no_commercials_no_content ["FILE PROCESSING COMPLETE 1000 FRAMES AT 25", "--", "--"]
      1000 25 [] (by decide)⟩

/-- The candidate-keeping loop is a filter: the kept commercials are
exactly the parsed candidates whose duration exceeds 10 frames. -/
theorem collectCommercials_eq (ls : List String) :
    collectCommercials ls =
      (ls.filterMap matchChapter).filter
        (fun p => decide ((10 : Int) < (p.2 : Int) - (p.1 : Int))) := by
  induction ls with
  | nil => rfl
  | cons line rest ih =>
    simp only [collectCommercials, List.filterMap_cons]
    cases h : matchChapter line with
    | none => simpa using ih
    | some pr =>
      obtain ⟨s, e⟩ := pr
      by_cases hd : (10 : Int) < (e : Int) - (s : Int)
      · simp [hd, List.filter_cons, ih]
      · simp [hd, List.filter_cons, ih]

/-- C5: a parsed candidate interval is kept in the commercials list if
and only if its duration `end - start` exceeds 10 frames; in particular
every member of the commercials list has duration greater than 10. -/
theorem kept_iff_duration_gt_ten (lines : List String) (N rate : Nat)
    (coms conts : List (Nat × Nat))
    (hp : generate_metadata lines = some (N, rate, coms, conts)) :
    (∀ p ∈ coms, (10 : Int) < (p.2 : Int) - (p.1 : Int)) ∧
    (∀ s e : Nat, (s, e) ∈ (lines.drop 2).filterMap matchChapter →
      ((s, e) ∈ coms ↔ (10 : Int) < (e : Int) - (s : Int))) := by
  obtain ⟨hcoms, -⟩ := generate_metadata_inv hp
  subst hcoms
  rw [collectCommercials_eq]
  constructor
  · intro p hpmem
    have := List.of_mem_filter hpmem
    simpa using this
  · intro s e hmem
    constructor
    · intro hin
      have := List.of_mem_filter hin
      simpa using this
    · intro hgt
      exact List.mem_filter.mpr ⟨hmem, by simpa using hgt⟩

theorem kept_iff_duration_gt_ten_witness :
    (((100 : Nat), (105 : Nat)) ∈ [((100 : Nat), (130 : Nat))] ↔
      (10 : Int) < (105 : Int) - (100 : Int)) :=
  ((kept_iff_duration_gt_ten
      ["FILE PROCESSING COMPLETE 1000 FRAMES AT 25", "--", "100 105", "100 130"]
      1000 25 [(100, 130)] [(1, 100), (130, 1000)] (by decide)).2)
    100 105 (by decide)

theorem isChain_nil_iff (N lp : Nat) : isChain N lp [] = true ↔ lp = N := by
  simp [isChain]

theorem isChain_cons_iff (N lp a b : Nat) (l : List (Nat × Nat)) :
    isChain N lp ((a, b) :: l) = true ↔
      (a = lp ∧ lp ≤ b ∧ isChain N b l = true) := by
  simp [isChain, and_assoc]

theorem comsOrdered_cons_iff (N lp s e : Nat) (l : List (Nat × Nat)) :
    comsOrdered N lp ((s, e) :: l) = true ↔
      (lp ≤ s ∧ s < e ∧ e ≤ N ∧ comsOrdered N e l = true) := by
  simp [comsOrdered, and_assoc]

/-- Every interval of a chain starts at or after the chain's start. -/
theorem isChain_start_le (N : Nat) :
    ∀ (l : List (Nat × Nat)) (lp : Nat), isChain N lp l = true → ∀ q ∈ l, lp ≤ q.1 := by
  intro l
  induction l with
  | nil =>
    intro lp _ q hq
    cases hq
  | cons hd tl ih =>
    intro lp hc q hq
    obtain ⟨a, b⟩ := hd
    obtain ⟨ha, hab, hrest⟩ := (isChain_cons_iff N lp a b tl).mp hc
    rcases List.mem_cons.mp hq with h | h
    · subst h
      omega
    · have := ih b hrest q h
      omega

/-- The intervals of a chain are pairwise non-overlapping (half-open
reading: one ends before the other starts). -/
theorem isChain_pairwise (N : Nat) :
    ∀ (l : List (Nat × Nat)) (lp : Nat), isChain N lp l = true →
      l.Pairwise (fun p q => p.2 ≤ q.1 ∨ q.2 ≤ p.1) := by
  intro l
  induction l with
  | nil =>
    intro lp _
    exact List.Pairwise.nil
  | cons hd tl ih =>
    intro lp hc
    obtain ⟨a, b⟩ := hd
    obtain ⟨ha, hab, hrest⟩ := (isChain_cons_iff N lp a b tl).mp hc
    refine List.Pairwise.cons ?_ (ih b hrest)
    intro q hq
    exact Or.inl (isChain_start_le N tl b hrest q hq)

/-- A chain from `lp` to `N` covers every frame of `[lp, N)`. -/
theorem isChain_covers (N : Nat) :
    ∀ (l : List (Nat × Nat)) (lp : Nat), isChain N lp l = true →
      ∀ x, lp ≤ x → x < N → ∃ p ∈ l, p.1 ≤ x ∧ x < p.2 := by
  intro l
  induction l with
  | nil =>
    intro lp hc x hx1 hx2
    have := (isChain_nil_iff N lp).mp hc
    omega
  | cons hd tl ih =>
    intro lp hc x hx1 hx2
    obtain ⟨a, b⟩ := hd
    obtain ⟨ha, hab, hrest⟩ := (isChain_cons_iff N lp a b tl).mp hc
    by_cases hxb : x < b
    · exact ⟨(a, b), List.mem_cons_self _ _, by omega, hxb⟩
    · obtain ⟨p, hp, h1, h2⟩ := ih b hrest x (by omega) hx2
      exact ⟨p, List.mem_cons_of_mem _ hp, h1, h2⟩

/-- Core construction for the partition claim: for a nonempty, in-range,
ordered commercials list, the content intervals emitted by the cursor
loop interleave with the commercials into a gapless chain from the
cursor to the last frame. -/
theorem contentIntervals_chain (N : Nat) :
    ∀ (coms : List (Nat × Nat)) (lp : Nat), coms ≠ [] → comsOrdered N lp coms = true →
      ∃ merged, (contentIntervals N lp coms ++ coms).Perm merged ∧
        isChain N lp merged = true := by
  intro coms
  induction coms with
  | nil =>
    intro lp h _
    exact absurd rfl h
  | cons hd tl ih =>
    intro lp _ hord
    obtain ⟨s, e⟩ := hd
    obtain ⟨hls, hse, heN, hrest⟩ := (comsOrdered_cons_iff N lp s e tl).mp hord
    cases tl with
    | nil =>
      by_cases h1 : lp < s <;> by_cases h2 : e < N
      · refine ⟨[(lp, s), (s, e), (e, N)], ?_, ?_⟩
        · simp only [contentIntervals, if_pos h1, if_pos h2]
          exact List.Perm.cons _ (List.Perm.swap _ _ _)
        · rw [isChain_cons_iff, isChain_cons_iff, isChain_cons_iff, isChain_nil_iff]
          omega
      · refine ⟨[(lp, s), (s, e)], ?_, ?_⟩
        · simp only [contentIntervals, if_pos h1, if_neg h2, List.append_nil]
          exact List.Perm.refl _
        · rw [isChain_cons_iff, isChain_cons_iff, isChain_nil_iff]
          omega
      · refine ⟨[(s, e), (e, N)], ?_, ?_⟩
        · simp only [contentIntervals, if_neg h1, if_pos h2, List.nil_append]
          exact List.Perm.swap _ _ _
        · rw [isChain_cons_iff, isChain_cons_iff, isChain_nil_iff]
          omega
      · refine ⟨[(s, e)], ?_, ?_⟩
        · simp only [contentIntervals, if_neg h1, if_neg h2, List.append_nil,
            List.nil_append]
          exact List.Perm.refl _
        · rw [isChain_cons_iff, isChain_nil_iff]
          omega
    | cons t ts =>
      obtain ⟨m, hperm, hchain⟩ := ih e (by simp) hrest
      by_cases h1 : lp < s
      · refine ⟨(lp, s) :: (s, e) :: m, ?_, ?_⟩
        · simp only [contentIntervals, if_pos h1, List.cons_append, List.nil_append]
          refine List.Perm.cons _ ?_
          exact List.Perm.trans List.perm_middle (List.Perm.cons _ hperm)
        · rw [isChain_cons_iff, isChain_cons_iff]
          exact ⟨rfl, by omega, rfl, by omega, hchain⟩
      · have hsl : s = lp := by omega
        refine ⟨(s, e) :: m, ?_, ?_⟩
        · simp only [contentIntervals, if_neg h1, List.nil_append]
          exact List.Perm.trans List.perm_middle (List.Perm.cons _ hperm)
        · rw [isChain_cons_iff]
          exact ⟨hsl, by omega, hchain⟩

/-- C4 (amended with nonemptiness): for a parsed report whose kept
commercials are nonempty, in-range and non-overlapping in increasing
time order, the content intervals never overlap the commercials, and
content and commercials together are a permutation of a sorted gapless
chain covering `[1, total_frame_count]`; every frame `x` with
`1 ≤ x < total_frame_count` lies in one of the intervals. -/
theorem content_commercials_partition (lines : List String) (N rate : Nat)
    (coms conts : List (Nat × Nat))
    (hp : generate_metadata lines = some (N, rate, coms, conts))
    (hne : coms ≠ []) (hord : comsOrdered N 1 coms = true) :
    (∀ p ∈ conts, ∀ q ∈ coms, p.2 ≤ q.1 ∨ q.2 ≤ p.1) ∧
    (∃ merged, (conts ++ coms).Perm merged ∧ isChain N 1 merged = true) ∧
    (∀ x, 1 ≤ x → x < N → ∃ p ∈ conts ++ coms, p.1 ≤ x ∧ x < p.2) := by
  obtain ⟨-, hconts⟩ := generate_metadata_inv hp
  subst hconts
  obtain ⟨m, hperm, hchain⟩ := contentIntervals_chain N coms 1 hne hord
  refine ⟨?_, ⟨m, hperm, hchain⟩, ?_⟩
  · have hpw : m.Pairwise (fun p q => p.2 ≤ q.1 ∨ q.2 ≤ p.1) :=
      isChain_pairwise N m 1 hchain
    have hpw2 : (contentIntervals N 1 coms ++ coms).Pairwise
        (fun p q => p.2 ≤ q.1 ∨ q.2 ≤ p.1) :=
      (List.Perm.pairwise_iff (fun h => Or.symm h) hperm).mpr hpw
    intro p hpmem q hqmem
    exact (List.pairwise_append.mp hpw2).2.2 p hpmem q hqmem
  · intro x hx1 hx2
    obtain ⟨p, hpm, h1, h2⟩ := isChain_covers N m 1 hchain x hx1 hx2
    exact ⟨p, hperm.mem_iff.mpr hpm, h1, h2⟩

theorem content_commercials_partition_witness :
    (((1 : Nat), (100 : Nat)).2 ≤ ((100 : Nat), (130 : Nat)).1 ∨
      ((100 : Nat), (130 : Nat)).2 ≤ ((1 : Nat), (100 : Nat)).1) :=
  (content_commercials_partition
      ["FILE PROCESSING COMPLETE 1000 FRAMES AT 25", "--", "100 130", "500 550"]
      1000 25 [(100, 130), (500, 550)] [(1, 100), (130, 500), (550, 1000)]
      (by decide) (by decide) (by decide)).1
    (1, 100) (by decide) (100, 130) (by decide)

/-- C4 counterexample: a parsed report with a valid header and no kept
commercial vacuously satisfies the in-range/ordering hypothesis, yet the
(empty) union of content and commercials cannot cover `[1, 1000]`, so
the claim fails without a nonemptiness assumption. -/
theorem partition_fails_without_commercials :
    generate_metadata ["FILE PROCESSING COMPLETE 1000 FRAMES AT 25", "--", "--"] =
      some (1000, 25, [], []) ∧
    comsOrdered 1000 1 [] = true ∧
    ¬ ∃ merged, (([] : List (Nat × Nat)) ++ []).Perm merged ∧
      isChain 1000 1 merged = true := by
  refine ⟨by decide, rfl, ?_⟩
  rintro ⟨m, hperm, hchain⟩
  have hm : m = [] := hperm.symm.eq_nil
  subst hm
  exact absurd hchain (by decide)

/-- Consuming a literal from an input that starts with that literal
leaves exactly the remainder. -/
theorem dropLit_self_append (lit r : List Char) : dropLit lit (lit ++ r) = some r := by
  induction lit with
  | nil => rfl
  | cons c cs ih => simp [dropLit, ih]

/-- A maximal run: `takeWhile`/`dropWhile` split `l ++ r` at the boundary
when all of `l` satisfies `p` and `r` does not start with a `p`-character. -/
theorem takeWhile_run_append (p : Char → Bool) :
    ∀ (l r : List Char), (∀ c ∈ l, p c = true) → headNot p r →
      (l ++ r).takeWhile p = l ∧ (l ++ r).dropWhile p = r := by
  intro l
  induction l with
  | nil =>
    intro r _ hr
    cases r with
    | nil => exact ⟨rfl, rfl⟩
    | cons c t =>
      simp only [headNot] at hr
      simp [List.takeWhile_cons, List.dropWhile_cons, hr]
  | cons c t ih =>
    intro r hl hr
    have hc : p c = true := hl c (List.mem_cons_self _ _)
    have ht : ∀ x ∈ t, p x = true := fun x hx => hl x (List.mem_cons_of_mem _ hx)
    obtain ⟨h1, h2⟩ := ih r ht hr
    simp [List.takeWhile_cons, List.dropWhile_cons, hc, h1, h2]

/-- `p+` matches a nonempty all-`p` block followed by a non-`p`
boundary. -/
theorem takeRun_run_append (p : Char → Bool) (l r : List Char) (hne : l ≠ [])
    (hl : ∀ c ∈ l, p c = true) (hr : headNot p r) :
    takeRun p (l ++ r) = some (l, r) := by
  obtain ⟨h1, h2⟩ := takeWhile_run_append p l r hl hr
  cases l with
  | nil => exact absurd rfl hne
  | cons c t =>
    simp only [takeRun, h1, h2]
    rfl

/-- `p+` fails on an input that does not start with a `p`-character. -/
theorem takeRun_none (p : Char → Bool) (r : List Char) (hr : headNot p r) :
    takeRun p r = none := by
  cases r with
  | nil => rfl
  | cons c t =>
    simp only [headNot] at hr
    simp [takeRun, List.takeWhile_cons, hr]

/-- C10: the header regex performs a prefix match, so a frame-rate field
such as `25.00` matches through its integer prefix only (rate parsed as
25, report accepted), while a rate field beginning with a non-digit
(after the mandatory whitespace) fails the match and the report yields
the empty segment set. -/
theorem header_rate_integer_prefix :
    (matchHeader "FILE PROCESSING COMPLETE 1000 FRAMES AT 25.00" = some (1000, 25)) ∧
    (∀ l1 l2 : String,
      generate_metadata ["FILE PROCESSING COMPLETE 1000 FRAMES AT 25.00", l1, l2] =
        some (1000, 25, collectCommercials [l2],
          contentIntervals 1000 1 (collectCommercials [l2]))) ∧
    (∀ rest : List Char, headNot pyIsDigit rest → headNot pyIsSpace rest →
      matchHeaderChars ("FILE PROCESSING COMPLETE 1000 FRAMES AT ".data ++ rest) = none) ∧
    (∀ (rest : List Char) (l1 l2 : String),
      headNot pyIsDigit rest → headNot pyIsSpace rest →
      generate_metadata
        [String.mk ("FILE PROCESSING COMPLETE 1000 FRAMES AT ".data ++ rest), l1, l2] =
        none) := by
  have H3 : ∀ rest : List Char, headNot pyIsDigit rest → headNot pyIsSpace rest →
      matchHeaderChars ("FILE PROCESSING COMPLETE 1000 FRAMES AT ".data ++ rest) = none := by
    intro rest hd hs
    have hsplit : ("FILE PROCESSING COMPLETE 1000 FRAMES AT ".data : List Char) =
        "FILE PROCESSING COMPLETE".data ++ [' '] ++ ['1', '0', '0', '0'] ++
          " FRAMES AT".data ++ [' '] := by decide
    rw [hsplit]
    simp only [List.append_assoc]
    have e1 := dropLit_self_append "FILE PROCESSING COMPLETE".data
      ([' '] ++ (['1', '0', '0', '0'] ++ (" FRAMES AT".data ++ ([' '] ++ rest))))
    have e2 : takeRun pyIsSpace
        ([' '] ++ (['1', '0', '0', '0'] ++ (" FRAMES AT".data ++ ([' '] ++ rest)))) =
        some ([' '], ['1', '0', '0', '0'] ++ (" FRAMES AT".data ++ ([' '] ++ rest))) :=
      takeRun_run_append _ _ _ (by decide) (by decide) (by exact rfl)
    have e3 : takeRun pyIsDigit
        (['1', '0', '0', '0'] ++ (" FRAMES AT".data ++ ([' '] ++ rest))) =
        some (['1', '0', '0', '0'], " FRAMES AT".data ++ ([' '] ++ rest)) :=
      takeRun_run_append _ _ _ (by decide) (by decide) (by exact rfl)
    have e4 := dropLit_self_append " FRAMES AT".data ([' '] ++ rest)
    have e5 : takeRun pyIsSpace ([' '] ++ rest) = some ([' '], rest) :=
      takeRun_run_append _ _ _ (by decide) (by decide) hs
    have e6 : takeRun pyIsDigit rest = none := takeRun_none _ _ hd
    simp only [matchHeaderChars, e1, e2, e3, e4, e5, e6]
  refine ⟨by decide, ?_, H3, ?_⟩
  · intro l1 l2
    exact generate_metadata_three _ l1 l2 1000 25 (by decide)
  · intro rest l1 l2 hd hs
    exact generate_metadata_bad_header _ [l1, l2] (H3 rest hd hs) (by simp)

theorem header_rate_integer_prefix_witness :
    matchHeaderChars ("FILE PROCESSING COMPLETE 1000 FRAMES AT ".data ++ "x25".data) =
      none :=
  header_rate_integer_prefix.2.2.1 "x25".data (by decide) (by decide)
